import Mathlib

/-!
Shallow embedding of the Virtual-Memory / Cache-Simulator sources
(`cache_system.py`, `memory_management_unit.py`, `PageTable.py`) and proofs
about the claims of its specification.

Modelling conventions:
* Python `dict` / `collections.OrderedDict` objects are association lists
  (`List (Nat × β)`) kept in insertion order; assignment updates the value in
  place when the key is present and appends otherwise, exactly as Python
  preserves insertion order.
* Data stored in caches and memory is opaque in the source (dynamically
  typed); it is modelled by `Datum := Nat`.
* Python exceptions (`KeyError`, `ValueError`, `IndexError`) are modelled by
  `Except PyError`; a function that cannot raise keeps a plain return type.
* `numpy.random.randint` inside page-fault handling is modelled by an
  explicit `oracle : Nat` argument, universally quantified in the theorems.
-/

namespace VMSim

abbrev Datum := Nat

/-- A cache block: a Python dict mapping block offsets to data. -/
abbrev Block := List (Nat × Datum)

/-- Python exceptions raised by the modelled code. -/
inductive PyError where
  | keyError (key : Nat)
  | keyErrorMsg (msg : String)
  | valueError (msg : String)
  | indexError
deriving Repr, DecidableEq

/-- Python `d.get(k, None)` / `k in d`: lookup in an insertion-ordered dict. -/
def dictGet? {β : Type} : List (Nat × β) → Nat → Option β
  | [], _ => none
  | (k', v) :: t, k => if k' = k then some v else dictGet? t k

/-- Python `d[k] = v`: update in place when present, append otherwise. -/
def dictSet {β : Type} : List (Nat × β) → Nat → β → List (Nat × β)
  | [], k, v => [(k, v)]
  | (k', v') :: t, k, v => if k' = k then (k', v) :: t else (k', v') :: dictSet t k v

/-- Removal of every binding of a key (helper for `move_to_end`). -/
def dictRemove {β : Type} : List (Nat × β) → Nat → List (Nat × β)
  | [], _ => []
  | (k', v) :: t, k => if k' = k then dictRemove t k else (k', v) :: dictRemove t k

/-- `OrderedDict.move_to_end(k)`: re-insert the binding of `k` at the end.
The source only calls it on present keys; on an absent key it is the
identity here (Python would raise). -/
def odMoveToEnd {β : Type} (l : List (Nat × β)) (k : Nat) : List (Nat × β) :=
  match dictGet? l k with
  | none => l
  | some v => dictRemove l k ++ [(k, v)]

/-- `OrderedDict.popitem(last=False)`: drop the oldest (front) binding;
raises `KeyError` on an empty dict. -/
def popFront {β : Type} : List (Nat × β) → Except PyError (List (Nat × β))
  | [] => .error (.keyErrorMsg "dictionary is empty")
  | _ :: t => .ok t

/-- Python list subscription `l[i]`, raising `IndexError` when out of range. -/
def listGet {α : Type} (l : List α) (i : Nat) : Except PyError α :=
  match l[i]? with
  | some x => .ok x
  | none => .error .indexError

/-- Fuel-driven helper for `bit_length`; `fuel ≥ n` makes it exact. -/
def bitLenFuel : Nat → Nat → Nat
  | _, 0 => 0
  | 0, _ + 1 => 0
  | fuel + 1, n + 1 => bitLenFuel fuel ((n + 1) / 2) + 1

/-- Python `int.bit_length()`: number of bits needed to represent `n`. -/
def bit_length (n : Nat) : Nat := bitLenFuel n n

/-! ## CacheSet (`cache_system.py`, class `CacheSet`) -/

structure CacheSet where
  entries : List (Nat × Block)
  n_way : Nat
  block_size : Nat
deriving Repr, DecidableEq

/-- `CacheSet.__init__(n_way, block_size=16)`. -/
def mkCacheSet (n_way : Nat) (block_size : Nat) : CacheSet :=
  { entries := [], n_way, block_size }

/-- `CacheSet.check_hit(tag)`: `tag in self.entries`. -/
def CacheSet.check_hit (s : CacheSet) (tag : Nat) : Bool :=
  (dictGet? s.entries tag).isSome

/-- `CacheSet.add_or_update(tag, block)`.  The `isinstance(block, dict)`
check holds by typing in this embedding; the size check raises `ValueError`. -/
def CacheSet.add_or_update (s : CacheSet) (tag : Nat) (block : Block) :
    Except PyError CacheSet :=
  if s.block_size < block.length then
    .error (.valueError "Block data exceeds allowed size")
  else if (dictGet? s.entries tag).isSome then
    .ok { s with entries := odMoveToEnd (dictSet s.entries tag block) tag }
  else if s.n_way ≤ s.entries.length then do
    let rest ← popFront s.entries
    .ok { s with entries := dictSet rest tag block }
  else
    .ok { s with entries := dictSet s.entries tag block }

/-- `CacheSet.get_block(tag)`: `self.entries.get(tag, None)`. -/
def CacheSet.get_block (s : CacheSet) (tag : Nat) : Option Block :=
  dictGet? s.entries tag

/-- `CacheSet.write_data(tag, block_offset, data)`: when the tag is present,
`self.entries[tag][block_offset] = data` (implicitly returning `None`);
when absent, `return False`.  The second component is the Python return
value (`none` ↦ `None`, `some false` ↦ `False`). -/
def CacheSet.write_data (s : CacheSet) (tag : Nat) (block_offset : Nat) (data : Datum) :
    CacheSet × Option Bool :=
  match dictGet? s.entries tag with
  | some b => ({ s with entries := dictSet s.entries tag (dictSet b block_offset data) }, none)
  | none => (s, some false)

/-- `CacheSet.read_data(tag, offset)`: `self.entries[tag].get(offset, None)`;
the subscription `self.entries[tag]` raises `KeyError` on an absent tag. -/
def CacheSet.read_data (s : CacheSet) (tag : Nat) (offset : Nat) :
    Except PyError (Option Datum) :=
  match dictGet? s.entries tag with
  | none => .error (.keyError tag)
  | some b => .ok (dictGet? b offset)

/-! ## SetAssociativeCache (`cache_system.py`, class `SetAssociativeCache`) -/

/-- The runtime string flag `cache_type`. -/
inductive CacheType where
  | direct_mapped
  | fully_associative
  | set_associative
deriving Repr, DecidableEq

structure SetAssociativeCache where
  n_way : Nat
  line_size : Nat
  num_sets : Nat
  block_size : Nat
  cache_sets : List CacheSet
  cache_type : CacheType
  offset_bits : Nat
  index_bits : Nat
  level : Nat
deriving Repr, DecidableEq

/-- `SetAssociativeCache.__init__(level, size, line_size, n_way, block_size=16,
cache_type="set_associative")`. -/
def mkSetAssociativeCache (level size line_size n_way block_size : Nat)
    (cache_type : CacheType) : SetAssociativeCache :=
  let num_sets := if cache_type = .fully_associative then 1
                  else size / (line_size * n_way)
  { n_way, line_size, num_sets, block_size,
    cache_sets := List.replicate num_sets (mkCacheSet n_way block_size),
    cache_type,
    offset_bits := bit_length block_size - 1,
    index_bits := bit_length num_sets - 1,
    level }

/-- `SetAssociativeCache._get_set_index(address)`. -/
def SetAssociativeCache._get_set_index (c : SetAssociativeCache) (address : Nat) : Nat :=
  match c.cache_type with
  | .direct_mapped | .set_associative =>
      (address >>> c.offset_bits) &&& ((1 <<< c.index_bits) - 1)
  | .fully_associative => 0

/-- `SetAssociativeCache.get_tag(address)`.  Note the source shifts by
`set_index.bit_length()`, the bit length of the concrete index of this
address, not by the index width of the cache. -/
def SetAssociativeCache.get_tag (c : SetAssociativeCache) (address : Nat) : Nat :=
  match c.cache_type with
  | .fully_associative => address / c.line_size
  | _ =>
      let set_index := c._get_set_index address
      address >>> (bit_length set_index + bit_length c.block_size - 1)

/-- `SetAssociativeCache.get_offset(address)`: `address % self.block_size`. -/
def SetAssociativeCache.get_offset (c : SetAssociativeCache) (address : Nat) : Nat :=
  address % c.block_size

/-- `SetAssociativeCache.check_hit(address)`: returns the pair
`(tag-in-set, self.level)`. -/
def SetAssociativeCache.check_hit (c : SetAssociativeCache) (address : Nat) :
    Except PyError (Bool × Nat) := do
  let set_index := c._get_set_index address
  let tag := c.get_tag address
  let st ← listGet c.cache_sets set_index
  .ok (st.check_hit tag, c.level)

/-- `SetAssociativeCache.write_block(address, block)`. -/
def SetAssociativeCache.write_block (c : SetAssociativeCache) (address : Nat)
    (block : Block) : Except PyError SetAssociativeCache :=
  if c.block_size < block.length then
    .error (.valueError "Invalid block size or type")
  else do
    let set_index := c._get_set_index address
    let tag := c.get_tag address
    let st ← listGet c.cache_sets set_index
    let st' ← st.add_or_update tag block
    .ok { c with cache_sets := c.cache_sets.set set_index st' }

/-- A Python tuple is non-empty here, hence always truthy. -/
def pyTruthyPair (_ : Bool × Nat) : Bool := true

/-- `SetAssociativeCache.read_data(address)`.  The guard
`if self.check_hit(address):` tests the `(bool, level)` tuple returned by
`check_hit`, which is always truthy, so the body always runs. -/
def SetAssociativeCache.read_data (c : SetAssociativeCache) (address : Nat) :
    Except PyError (Option Datum) := do
  let hit ← c.check_hit address
  if pyTruthyPair hit then
    let set_index := c._get_set_index address
    let tag := c.get_tag address
    let block_offset := c.get_offset address
    let st ← listGet c.cache_sets set_index
    st.read_data tag block_offset
  else
    .ok none

/-- `SetAssociativeCache.write_data(address, data)`; the return value of
`CacheSet.write_data` is discarded, as in the source. -/
def SetAssociativeCache.write_data (c : SetAssociativeCache) (address : Nat)
    (data : Datum) : Except PyError SetAssociativeCache := do
  let set_index := c._get_set_index address
  let tag := c.get_tag address
  let block_offset := c.get_offset address
  let st ← listGet c.cache_sets set_index
  let r := st.write_data tag block_offset data
  .ok { c with cache_sets := c.cache_sets.set set_index r.1 }

/-- `SetAssociativeCache.get_block(address)`. -/
def SetAssociativeCache.get_block (c : SetAssociativeCache) (address : Nat) :
    Except PyError (Option Block) := do
  let set_index := c._get_set_index address
  let tag := c.get_tag address
  let st ← listGet c.cache_sets set_index
  .ok (st.get_block tag)

/-! ## CacheSystem (`cache_system.py`, class `CacheSystem`) -/

structure CacheSystem where
  cache_levels : List SetAssociativeCache
  n_way : Nat
  number_levels : Nat
  levels_size : List Nat
  line_size : Nat
deriving Repr, DecidableEq

/-- `CacheSystem.__init__(levels_size, levels=3, line_size=64, n_way=2)`:
each level is a `SetAssociativeCache` with default `block_size=16` and
default `cache_type="set_associative"`. -/
def mkCacheSystem (levels_size : List Nat) (levels line_size n_way : Nat) : CacheSystem :=
  { cache_levels := levels_size.enum.map
      (fun p => mkSetAssociativeCache (p.1 + 1) p.2 line_size n_way 16 .set_associative),
    n_way, number_levels := levels, levels_size, line_size }

/-- The promotion / write-through loop: `level.write_data(address, data)` on
each cache level of the list, in order (`CacheSystem.read_data` runs it over
the levels above a hit, `CacheSystem.write_data` over all levels). -/
def writeLevels (address : Nat) (data : Datum) :
    List SetAssociativeCache → Except PyError (List SetAssociativeCache)
  | [] => .ok []
  | c :: rest => do
    let c' ← c.write_data address data
    let rest' ← writeLevels address data rest
    .ok (c' :: rest')

/-- The level loop of `CacheSystem.read_data`: `pre` holds the levels that
already missed (nearer the CPU), in order.  On a hit the datum is written to
every earlier level, and the third component records the 0-based index of the
hitting level (instrumentation only; the source returns just the datum). -/
def readLevelsAux (address : Nat) (pre : List SetAssociativeCache) :
    List SetAssociativeCache →
    Except PyError (List SetAssociativeCache × Option Datum × Option Nat)
  | [] => .ok (pre, none, none)
  | c :: rest => do
    match ← c.read_data address with
    | some data => do
        let pre' ← writeLevels address data pre
        .ok (pre' ++ c :: rest, some data, some pre.length)
    | none => readLevelsAux address (pre ++ [c]) rest

/-- `CacheSystem.read_data(address)` with the hit level exposed. -/
def CacheSystem.read_data_aux (cs : CacheSystem) (address : Nat) :
    Except PyError (CacheSystem × Option Datum × Option Nat) := do
  let r ← readLevelsAux address [] cs.cache_levels
  .ok ({ cs with cache_levels := r.1 }, r.2.1, r.2.2)

/-- `CacheSystem.read_data(address)`: the state after the call and the value
the Python function returns (`None` on a full miss). -/
def CacheSystem.read_data (cs : CacheSystem) (address : Nat) :
    Except PyError (CacheSystem × Option Datum) := do
  let r ← cs.read_data_aux address
  .ok (r.1, r.2.1)

/-- `CacheSystem.write_data(address, data)`: write to all levels. -/
def CacheSystem.write_data (cs : CacheSystem) (address : Nat) (data : Datum) :
    Except PyError CacheSystem := do
  let levels ← writeLevels address data cs.cache_levels
  .ok { cs with cache_levels := levels }

/-- The loop of `CacheSystem.load_block`: `cache.write_block(address, block)`
on every level. -/
def loadLevels (address : Nat) (block : Block) :
    List SetAssociativeCache → Except PyError (List SetAssociativeCache)
  | [] => .ok []
  | c :: rest => do
    let c' ← c.write_block address block
    let rest' ← loadLevels address block rest
    .ok (c' :: rest')

/-- `CacheSystem.load_block(address, block)`. -/
def CacheSystem.load_block (cs : CacheSystem) (address : Nat) (block : Block) :
    Except PyError CacheSystem := do
  let levels ← loadLevels address block cs.cache_levels
  .ok { cs with cache_levels := levels }

/-! ## Memory (`memory_management_unit.py`, class `Memory`) -/

/-- A value held in `Memory.storage`: `write_data` stores raw data, while
`get_block` stores a whole block dict at the same key. -/
inductive MemVal where
  | datum (d : Datum)
  | block (b : Block)
deriving Repr, DecidableEq

structure Memory where
  size_byte : Nat
  storage : List (Nat × MemVal)
deriving Repr, DecidableEq

/-- `Memory.__init__(size_byte)`. -/
def mkMemory (size_byte : Nat) : Memory := { size_byte, storage := [] }

/-- `Memory.read(physical_address)`: `self.storage.get(physical_address, None)`. -/
def Memory.read (m : Memory) (physical_address : Nat) : Option MemVal :=
  dictGet? m.storage physical_address

/-- `Memory.write(physical_address, data)`. -/
def Memory.write (m : Memory) (physical_address : Nat) (data : MemVal) : Memory :=
  { m with storage := dictSet m.storage physical_address data }

/-- Encoding of the Python byte string `b"data" + bytes([i])` as a `Datum`
(`0x64617461` are the bytes of `"data"`). -/
def bytesDatum (i : Nat) : Datum := 0x64617461 * 256 + i

/-- The block dict `{i: b"data" + bytes([i]) for i in range(block_size)}`
synthesized by `Memory.get_block`. -/
def freshBlockData (block_size : Nat) : Block :=
  (List.range block_size).map (fun i => (i, bytesDatum i))

/-- `Memory.get_block(address, block_size=16)`: synthesizes a fresh block,
overwrites `storage[address]` with it and returns it.  The computed
`block_start_address` is unused in the source. -/
def Memory.get_block (m : Memory) (address : Nat) (block_size : Nat) : Block × Memory :=
  let _block_start_address := address - address % block_size
  let block_data := freshBlockData block_size
  (block_data, { m with storage := dictSet m.storage address (.block block_data) })

/-- `Memory.write_data(address, data)`: `self.storage[address] = data`. -/
def Memory.write_data (m : Memory) (address : Nat) (data : MemVal) : Memory :=
  { m with storage := dictSet m.storage address data }

/-! ## PageTable (`PageTable.py`) -/

structure PageTable where
  entries : List (Nat × Nat)
  PAGE_SIZE_KiB : Nat
  page_size : Nat
deriving Repr, DecidableEq

/-- `PageTable.__init__(PAGE_SIZE_KiB=4)`. -/
def mkPageTable (kib : Nat) : PageTable :=
  { entries := [], PAGE_SIZE_KiB := kib, page_size := kib * 1024 }

/-- `PageTable.add_entry(vpn, ppn)`: insert or overwrite unconditionally. -/
def PageTable.add_entry (pt : PageTable) (virtual_page_number physical_page_number : Nat) :
    PageTable :=
  { pt with entries := dictSet pt.entries virtual_page_number physical_page_number }

/-- `PageTable.get_physical_page_number(vpn)`. -/
def PageTable.get_physical_page_number (pt : PageTable) (virtual_page_number : Nat) :
    Option Nat :=
  dictGet? pt.entries virtual_page_number

/-- The message of the `KeyError` raised by `PageTable.update_entry`. -/
def noSuchMappingMsg (virtual_page_number : Nat) : String :=
  "No entry found for virtual page number: " ++ toString virtual_page_number

/-- `PageTable.update_entry(vpn, new_ppn)`: update when present, otherwise
raise `KeyError` (the spec's `NoSuchMapping`) before touching any entry. -/
def PageTable.update_entry (pt : PageTable) (virtual_page_number new_physical_page_number : Nat) :
    Except PyError PageTable :=
  if (dictGet? pt.entries virtual_page_number).isSome then
    .ok { pt with entries := dictSet pt.entries virtual_page_number new_physical_page_number }
  else
    .error (.keyErrorMsg (noSuchMappingMsg virtual_page_number))

/-- A caller that invokes `update_entry` and catches the exception: the
table it holds afterwards (unchanged when the call raised). -/
def PageTable.try_update (pt : PageTable) (virtual_page_number new_physical_page_number : Nat) :
    PageTable :=
  match pt.update_entry virtual_page_number new_physical_page_number with
  | .ok pt' => pt'
  | .error _ => pt

/-- `PageTable.remove_entry(vpn)`: delete when present, no-op otherwise. -/
def PageTable.remove_entry (pt : PageTable) (virtual_page_number : Nat) : PageTable :=
  { pt with entries := dictRemove pt.entries virtual_page_number }

/-! ## MMU (`memory_management_unit.py`, class `MMU`) -/

structure MMU where
  tlb : List (Nat × Nat)
  page_table : PageTable
  cache_system : CacheSystem
  memory : Memory
  is_palt : Bool
deriving Repr, DecidableEq

/-- `MMU.update_tlb(va, pa)`: `self.tlb[va] = pa`. -/
def MMU.update_tlb (m : MMU) (virtual_address physical_address : Nat) : MMU :=
  { m with tlb := dictSet m.tlb virtual_address physical_address }

/-- `MMU.translate_address(virtual_address)`.  `oracle` models the frame
number drawn by `np.random.randint` inside `handle_page_fault`; since that
draw never returns `None`, the `MemoryError` branch of the source is
unreachable and the function always returns a physical address. -/
def MMU.translate_address (m : MMU) (oracle : Nat) (virtual_address : Nat) : MMU × Nat :=
  let m := { m with is_palt := false }
  match dictGet? m.tlb virtual_address with
  | some pa => (m, pa)
  | none =>
    let page_size := m.page_table.page_size
    let offset := virtual_address &&& (page_size - 1)
    let offset_bits := bit_length (page_size - 1)
    let virtual_page_number := virtual_address >>> offset_bits
    match dictGet? m.page_table.entries virtual_page_number with
    | some ppn =>
        let physical_address := (ppn <<< offset_bits) ||| offset
        ((m.update_tlb virtual_address physical_address), physical_address)
    | none =>
        -- `handle_page_fault`: `self.is_palt = True`, draw a frame, install
        -- the mapping via `add_entry`, then proceed as on a hit.
        let m := { m with is_palt := true,
                          page_table := m.page_table.add_entry virtual_page_number oracle }
        let physical_address := (oracle <<< offset_bits) ||| offset
        ((m.update_tlb virtual_address physical_address), physical_address)

/-! ## Scenario definitions used by individual claims -/

/-- A caller issuing a sequence of `add_or_update` ("put") calls against a
cache set, catching exceptions: a put that raises leaves the set unchanged. -/
def runPuts (s : CacheSet) : List (Nat × Block) → CacheSet
  | [] => s
  | (tag, block) :: rest =>
    match s.add_or_update tag block with
    | .ok s' => runPuts s' rest
    | .error _ => runPuts s rest

/-- A small two-level hierarchy: L1 64 B (2 sets), L2 128 B (4 sets),
16-byte lines, 2-way. -/
def twoLevelSys : CacheSystem := mkCacheSystem [64, 128] 2 16 2

/-- State for the C2 counterexample: blocks loaded at `0x00`, `0x20` and
`0x40`; the loads at `0x20`/`0x40` map to L1 set 0 and evict the `0x00`
block from L1 while it stays resident in L2. -/
def c2loaded : Except PyError CacheSystem := do
  let cs1 ← twoLevelSys.load_block 0x00 (freshBlockData 16)
  let cs2 ← cs1.load_block 0x20 (freshBlockData 16)
  cs2.load_block 0x40 (freshBlockData 16)

/-- Witness state for C2: a one-level system. -/
def c2wBase : CacheSystem := mkCacheSystem [64] 1 16 2

/-- Witness state for C2 after loading a full block at address 0. -/
def c2wLoaded : CacheSystem :=
  match c2wBase.load_block 0 (freshBlockData 16) with
  | .ok cs => cs
  | .error _ => c2wBase

/-- Witness state for C2 after writing datum 5 at address 0. -/
def c2wWritten : CacheSystem :=
  match c2wLoaded.write_data 0 5 with
  | .ok cs => cs
  | .error _ => c2wLoaded

/-- Level 0 of `c2wLoaded`. -/
def c2wL0pre : SetAssociativeCache :=
  (c2wLoaded.cache_levels[0]?).getD (mkSetAssociativeCache 1 64 16 2 16 .set_associative)

/-- Level 0 of `c2wWritten`. -/
def c2wL0 : SetAssociativeCache :=
  (c2wWritten.cache_levels[0]?).getD (mkSetAssociativeCache 1 64 16 2 16 .set_associative)

/-- State for C3: L1 holds the tag of address 0 with an empty block, L2
holds it with the block `{0: 7, 2: 5}`, installed through `write_block` on
the two levels of `twoLevelSys`. -/
def c3state : Except PyError CacheSystem := do
  let l0 ← listGet twoLevelSys.cache_levels 0
  let l1 ← listGet twoLevelSys.cache_levels 1
  let l0' ← l0.write_block 0 []
  let l1' ← l1.write_block 0 [(0, 7), (2, 5)]
  .ok { twoLevelSys with cache_levels := [l0', l1'] }

/-- The C3 state unwrapped. -/
def c3cs : CacheSystem :=
  match c3state with
  | .ok cs => cs
  | .error _ => twoLevelSys

/-- The system after the C3 read of address 0 (which hits in L2). -/
def c3cs' : CacheSystem :=
  match c3cs.read_data_aux 0 with
  | .ok r => r.1
  | .error _ => c3cs

/-- Concrete cache set used by the C9 witness. -/
def c9set : CacheSet := { entries := [(3, [(1, 9)])], n_way := 2, block_size := 16 }

/-- Blocks read back for C3: level 0 and level 1 of `c3cs'` at address 0. -/
def c3l0block : Except PyError (Option Block) :=
  (listGet c3cs'.cache_levels 0).bind (fun l => l.get_block 0)

/-- Blocks read back for C3: level 1 of `c3cs'` at address 0. -/
def c3l1block : Except PyError (Option Block) :=
  (listGet c3cs'.cache_levels 1).bind (fun l => l.get_block 0)

/-- Set-associative level used by the C5 counterexample:
`block_size = 16 = 2^4`, `num_sets = 128 / (16 * 2) = 4 = 2^2`. -/
def c5sa : SetAssociativeCache := mkSetAssociativeCache 1 128 16 2 16 .set_associative

/-- Fully-associative level used by the C5 counterexample:
`line_size = 64`, `block_size = 16`. -/
def c5fa : SetAssociativeCache := mkSetAssociativeCache 1 128 64 2 16 .fully_associative

/-! # Theorems -/

/-! ### Arithmetic facts about `bit_length` -/

theorem bitLenFuel_eq_zero (f : Nat) : bitLenFuel f 0 = 0 := by cases f <;> rfl

theorem bitLenFuel_congr : ∀ n f g, n ≤ f → n ≤ g → bitLenFuel f n = bitLenFuel g n := by
  intro n
  induction n using Nat.strong_induction_on with
  | _ n ih =>
    intro f g hf hg
    cases n with
    | zero => rw [bitLenFuel_eq_zero, bitLenFuel_eq_zero]
    | succ m =>
      obtain ⟨f', rfl⟩ : ∃ f', f = f' + 1 := ⟨f - 1, by omega⟩
      obtain ⟨g', rfl⟩ : ∃ g', g = g' + 1 := ⟨g - 1, by omega⟩
      show bitLenFuel f' ((m + 1) / 2) + 1 = bitLenFuel g' ((m + 1) / 2) + 1
      have hlt : (m + 1) / 2 < m + 1 := Nat.div_lt_self (Nat.succ_pos m) (by omega)
      rw [ih _ hlt f' g' (by omega) (by omega)]

theorem bit_length_succ (n : Nat) : bit_length (n + 1) = bit_length ((n + 1) / 2) + 1 := by
  show bitLenFuel (n + 1) (n + 1) = bit_length ((n + 1) / 2) + 1
  show bitLenFuel n ((n + 1) / 2) + 1 = bit_length ((n + 1) / 2) + 1
  have hle : (n + 1) / 2 ≤ n := by omega
  rw [bit_length, bitLenFuel_congr ((n + 1) / 2) n ((n + 1) / 2) hle (Nat.le_refl _)]

theorem bit_length_two_pow (k : Nat) : bit_length (2 ^ k) = k + 1 := by
  induction k with
  | zero => rfl
  | succ k ih =>
    have h2 : 2 ^ (k + 1) = 2 ^ k * 2 := by rw [Nat.pow_succ]
    have hpos : 0 < 2 ^ (k + 1) := Nat.pos_pow_of_pos _ (by omega)
    obtain ⟨m, hm⟩ : ∃ m, 2 ^ (k + 1) = m + 1 := ⟨2 ^ (k + 1) - 1, by omega⟩
    rw [hm, bit_length_succ, ← hm]
    have hdiv : 2 ^ (k + 1) / 2 = 2 ^ k := by rw [h2]; omega
    rw [hdiv, ih]

/-- `2 ^ (bit_length n - 1) ≤ n` for positive `n`. -/
theorem two_pow_bit_length_pred_le : ∀ n, 1 ≤ n → 2 ^ (bit_length n - 1) ≤ n := by
  intro n
  induction n using Nat.strong_induction_on with
  | _ n ih =>
    intro hn
    match n, hn with
    | 1, _ => exact Nat.le_refl 1
    | m + 2, _ =>
      rw [bit_length_succ]
      have hhalf : 1 ≤ (m + 2) / 2 := by omega
      have hlt : (m + 2) / 2 < m + 2 := Nat.div_lt_self (by omega) (by omega)
      have h := ih _ hlt hhalf
      have hbl : 1 ≤ bit_length ((m + 2) / 2) := by
        obtain ⟨j, hj⟩ : ∃ j, (m + 2) / 2 = j + 1 := ⟨(m + 2) / 2 - 1, by omega⟩
        rw [hj, bit_length_succ]; omega
      have : 2 ^ (bit_length ((m + 2) / 2) + 1 - 1) = 2 * 2 ^ (bit_length ((m + 2) / 2) - 1) := by
        rw [Nat.add_sub_cancel]
        conv_lhs => rw [← Nat.sub_add_cancel hbl]
        rw [Nat.pow_succ, Nat.mul_comm]
      rw [this]
      calc 2 * 2 ^ (bit_length ((m + 2) / 2) - 1) ≤ 2 * ((m + 2) / 2) :=
            Nat.mul_le_mul_left 2 h
        _ ≤ m + 2 := by omega

/-! ### Dictionary and list lemmas -/

theorem dictGet?_dictSet_self {β : Type} (l : List (Nat × β)) (k : Nat) (v : β) :
    dictGet? (dictSet l k v) k = some v := by
  induction l with
  | nil => simp [dictSet, dictGet?]
  | cons p t ih =>
    obtain ⟨k', v'⟩ := p
    by_cases h : k' = k
    · simp [dictSet, dictGet?, h]
    · simp [dictSet, dictGet?, h, ih]

theorem dictGet?_dictSet_ne {β : Type} (l : List (Nat × β)) (k t : Nat) (v : β)
    (h : t ≠ k) : dictGet? (dictSet l k v) t = dictGet? l t := by
  have h' : k ≠ t := fun e => h e.symm
  induction l with
  | nil => simp [dictSet, dictGet?, h']
  | cons p tl ih =>
    obtain ⟨k', v'⟩ := p
    by_cases hk : k' = k
    · subst hk
      simp [dictSet, dictGet?, h']
    · simp [dictSet, dictGet?, hk, ih]

theorem dictSet_map_fst_of_isSome {β : Type} (l : List (Nat × β)) (k : Nat) (v : β)
    (h : (dictGet? l k).isSome) : (dictSet l k v).map Prod.fst = l.map Prod.fst := by
  induction l with
  | nil => simp [dictGet?] at h
  | cons p t ih =>
    obtain ⟨k', v'⟩ := p
    by_cases hk : k' = k
    · simp [dictSet, hk]
    · simp [dictGet?, hk] at h
      simp [dictSet, hk, ih h]

theorem dictSet_length_of_isSome {β : Type} (l : List (Nat × β)) (k : Nat) (v : β)
    (h : (dictGet? l k).isSome) : (dictSet l k v).length = l.length := by
  have := dictSet_map_fst_of_isSome l k v h
  have h1 : ((dictSet l k v).map Prod.fst).length = (l.map Prod.fst).length := by rw [this]
  simpa using h1

theorem dictSet_length_le {β : Type} (l : List (Nat × β)) (k : Nat) (v : β) :
    (dictSet l k v).length ≤ l.length + 1 := by
  induction l with
  | nil => simp [dictSet]
  | cons p t ih =>
    obtain ⟨k', v'⟩ := p
    by_cases hk : k' = k
    · simp [dictSet, hk]
    · simp only [dictSet, if_neg hk, List.length_cons]
      omega

theorem dictRemove_length_lt {β : Type} (l : List (Nat × β)) (k : Nat)
    (h : (dictGet? l k).isSome) : (dictRemove l k).length < l.length := by
  induction l with
  | nil => simp [dictGet?] at h
  | cons p t ih =>
    obtain ⟨k', v'⟩ := p
    by_cases hk : k' = k
    · simp only [dictRemove, if_pos hk, List.length_cons]
      have : (dictRemove t k).length ≤ t.length := by
        clear ih h
        induction t with
        | nil => simp [dictRemove]
        | cons q u ihq =>
          obtain ⟨q1, q2⟩ := q
          by_cases hq : q1 = k <;> simp [dictRemove, hq] <;> omega
      omega
    · simp only [dictGet?, if_neg hk] at h
      simp only [dictRemove, if_neg hk, List.length_cons]
      exact Nat.succ_lt_succ (ih h)

theorem listGet_eq_ok_iff {α : Type} {l : List α} {i : Nat} {x : α} :
    listGet l i = .ok x ↔ l[i]? = some x := by
  unfold listGet
  cases h : l[i]? <;> simp

theorem listGet_lt {α : Type} {l : List α} {i : Nat} {x : α}
    (h : listGet l i = .ok x) : i < l.length := by
  rw [listGet_eq_ok_iff] at h
  exact (List.getElem?_eq_some.mp h).1

theorem set_getElem?_self {α : Type} : ∀ (l : List α) (i : Nat) (x : α),
    l[i]? = some x → l.set i x = l
  | [], i, x, h => by simp at h
  | a :: t, 0, x, h => by
      simp only [List.getElem?_cons_zero, Option.some.injEq] at h
      simp [h]
  | a :: t, i + 1, x, h => by
      simp only [List.getElem?_cons_succ] at h
      simp [set_getElem?_self t i x h]

theorem exceptBind_ok {ε α β : Type} (a : α) (f : α → Except ε β) :
    (Except.ok a : Except ε α) >>= f = f a := rfl

theorem exceptBind_error {ε α β : Type} (e : ε) (f : α → Except ε β) :
    (Except.error e : Except ε α) >>= f = .error e := rfl

/-! ### C1 — full-hierarchy miss -/

/-- C1: the claim says that on an address resident in no cache level,
`CacheSystem.read_data` — and likewise a single level's
`SetAssociativeCache.read_data` on an absent tag — returns `None` without
raising.  The code instead raises `KeyError`: the guard
`if self.check_hit(address):` tests the `(bool, level)` tuple returned by
`check_hit`, which is always truthy, so `CacheSet.read_data` executes
`self.entries[tag]` on the absent tag.  Evaluated on a fresh hierarchy
(and a fresh single level) at address 0, both calls produce `KeyError`. -/
theorem C1_full_miss_raises_keyError :
    (mkCacheSystem [64, 128, 256] 3 16 2).read_data 0 = .error (.keyError 0)
    ∧ (mkSetAssociativeCache 1 64 16 2 16 .set_associative).read_data 0
        = .error (.keyError 0) :=
  ⟨rfl, rfl⟩

/-! ### C4 — LRU eviction order -/

/-- C4 counterexample: the claim says that after the access sequence
`[A, B, C, A]` of distinct tags into a 2-way set, inserting C evicts B and
keeps A.  With `A = 10`, `B = 20`, `C = 30` inserted into a fresh 2-way
`CacheSet`, after inserting C the set does NOT contain A (`check_hit 10 =
false`: A was evicted, so the final access of A misses) and still contains
B (`check_hit 20 = true`), the opposite of the claim. -/
theorem C4_counterexample :
    (((mkCacheSet 2 16).add_or_update 10 []).bind
      (fun s1 => (s1.add_or_update 20 []).bind
        (fun s2 => s2.add_or_update 30 []))).map
      (fun s3 => (s3.check_hit 10, s3.check_hit 20))
    = .ok (false, true) := rfl

/-- C4 amended: for the access sequence `[A, B, C, A]` of distinct tags
into a fresh 2-way set, the insertion of C forces an eviction and the
evicted tag is A — the least-recently used — not B; afterwards the set
holds exactly `[B, C]` in recency order, so the final access of A misses. -/
theorem C4_lru_evicts_A (A B C : Nat) (bA bB bC : Block)
    (hAB : A ≠ B) (hAC : A ≠ C) (hBC : B ≠ C)
    (hA : bA.length ≤ 16) (hB : bB.length ≤ 16) (hC : bC.length ≤ 16) :
    ((mkCacheSet 2 16).add_or_update A bA).bind
      (fun s1 => (s1.add_or_update B bB).bind
        (fun s2 => s2.add_or_update C bC))
    = .ok { entries := [(B, bB), (C, bC)], n_way := 2, block_size := 16 } := by
  have h1 : (mkCacheSet 2 16).add_or_update A bA
      = .ok { entries := [(A, bA)], n_way := 2, block_size := 16 } := by
    simp [mkCacheSet, CacheSet.add_or_update, dictGet?, dictSet, Nat.not_lt.mpr hA]
  have h2 : CacheSet.add_or_update { entries := [(A, bA)], n_way := 2, block_size := 16 } B bB
      = .ok { entries := [(A, bA), (B, bB)], n_way := 2, block_size := 16 } := by
    simp [CacheSet.add_or_update, dictGet?, dictSet, hAB, Nat.not_lt.mpr hB]
  have h3 : CacheSet.add_or_update
        { entries := [(A, bA), (B, bB)], n_way := 2, block_size := 16 } C bC
      = .ok { entries := [(B, bB), (C, bC)], n_way := 2, block_size := 16 } := by
    simp [CacheSet.add_or_update, dictGet?, dictSet, popFront, exceptBind_ok, hAC, hBC,
      Nat.not_lt.mpr hC]
  rw [h1]
  show (CacheSet.add_or_update _ B bB).bind _ = _
  rw [h2]
  show CacheSet.add_or_update _ C bC = _
  rw [h3]

/-- C4 witness: the amended statement at `A = 10`, `B = 20`, `C = 30` with
empty blocks. -/
theorem C4_witness :
    (10 : Nat) ≠ 20
    ∧ ((mkCacheSet 2 16).add_or_update 10 []).bind
        (fun s1 => (s1.add_or_update 20 []).bind
          (fun s2 => s2.add_or_update 30 []))
      = .ok { entries := [(20, []), (30, [])], n_way := 2, block_size := 16 } :=
  ⟨by decide,
   C4_lru_evicts_A 10 20 30 [] [] [] (by decide) (by decide) (by decide)
     (by decide) (by decide) (by decide)⟩

/-! ### C2 — write-through counterexample -/

/-- C2 counterexample: the claim says that after `CacheSystem.write_data`
plus the MMU's write-through to memory, every cache level returns the
written datum, a level without a resident block being populated first
(write-allocate).  In `c2loaded` the block of address 0 was evicted from L1
but is resident in L2; after `write_data 0 7`, L1 still has no block for
address 0 (`check_hit` is `(false, 1)` — nothing was allocated), reading
L1 raises `KeyError` rather than returning 7, and only L2 returns 7. -/
theorem C2_counterexample :
    (c2loaded.bind (fun cs => (cs.write_data 0 7).bind (fun cs' =>
      (listGet cs'.cache_levels 0).bind (fun l0 =>
        (listGet cs'.cache_levels 1).map (fun l1 =>
          (l0.check_hit 0, l0.read_data 0, l1.read_data 0))))))
    = .ok (.ok (false, 1), .error (.keyError 0), .ok (some 7)) := rfl

/-! ### C3 — promotion counterexample -/

/-- C3 counterexample: the claim says a hit at level `k` copies the owning
block into every level `0..k` before returning.  In `c3cs`, reading
address 0 hits at level 1 (0-based) and returns datum 7; afterwards level
0's block for the address is `{0: 7}` while the owning level-1 block is
`{0: 7, 2: 5}` — at offset 2 they differ, so the owning block was NOT
copied into level 0; promotion only wrote the single datum. -/
theorem C3_counterexample :
    c3cs.read_data_aux 0 = .ok (c3cs', some 7, some 1)
    ∧ c3l0block = .ok (some [(0, 7)])
    ∧ c3l1block = .ok (some [(0, 7), (2, 5)])
    ∧ dictGet? [(0, 7)] 2 = none
    ∧ dictGet? [(0, 7), (2, 5)] 2 = some 5 :=
  ⟨rfl, rfl, rfl, rfl, rfl⟩

/-! ### C5 — address decomposition counterexample -/

/-- C5 counterexample: with block size `B = 16 = 2^4` and set count
`S = 4 = 2^2` (`c5sa`), the index of address 528 matches the claimed
`(A >> log2 B) mod S`, but the tag is `528 >> 5 = 16`, not the claimed
`A >> (log2 B + log2 S) = 528 >> 6 = 8`: the source shifts by
`set_index.bit_length()` (here `bit_length 1 = 1`), not by `log2 S = 2`.
For the fully-associative `c5fa`, `get_tag 64 = 64 // line_size = 1`,
not the claimed `A ÷ B = 64 / 16 = 4`. -/
theorem C5_counterexample :
    c5sa.block_size = 2 ^ 4 ∧ c5sa.num_sets = 2 ^ 2
    ∧ c5sa._get_set_index 528 = (528 >>> 4) % 2 ^ 2
    ∧ c5sa.get_tag 528 = 16
    ∧ c5sa.get_tag 528 ≠ 528 >>> (4 + 2)
    ∧ c5fa.block_size = 2 ^ 4
    ∧ c5fa.get_tag 64 = 1
    ∧ c5fa.get_tag 64 ≠ 64 / 2 ^ 4 :=
  ⟨rfl, rfl, rfl, rfl, by decide, rfl, rfl, by decide⟩

/-! ### C8 — update on an absent page-table key -/

/-- C8: for every page table and every `vpn` absent from it,
`update_entry(vpn, ppn)` raises `KeyError` (the spec's `NoSuchMapping`)
with the source's message, and a caller that catches the exception still
holds the unchanged table: the raise happens before any mutation. -/
theorem C8_update_absent_raises (pt : PageTable) (vpn ppn : Nat)
    (h : dictGet? pt.entries vpn = none) :
    pt.update_entry vpn ppn = .error (.keyErrorMsg (noSuchMappingMsg vpn))
    ∧ pt.try_update vpn ppn = pt := by
  have h1 : pt.update_entry vpn ppn = .error (.keyErrorMsg (noSuchMappingMsg vpn)) := by
    unfold PageTable.update_entry
    simp [h]
  refine ⟨h1, ?_⟩
  unfold PageTable.try_update
  rw [h1]

/-- C8 witness: the empty table of `mkPageTable 4` with `vpn = 1`. -/
theorem C8_witness :
    dictGet? (mkPageTable 4).entries 1 = none
    ∧ ((mkPageTable 4).update_entry 1 5 = .error (.keyErrorMsg (noSuchMappingMsg 1))
       ∧ (mkPageTable 4).try_update 1 5 = mkPageTable 4) :=
  ⟨rfl, C8_update_absent_raises (mkPageTable 4) 1 5 rfl⟩

/-! ### C9 — CacheSet.write_data (the spec's `write_offset`) -/

/-- C9: on a tag absent from the set, `CacheSet.write_data` returns the
distinguished failure value `False` (the spec's `MissingTag`) and leaves
the set untouched — it does not silently report success; on a present tag
it mutates exactly the element at the given offset of the block stored
under that tag: the key order is unchanged, every other tag keeps its
block, and every other offset of the touched block keeps its datum. -/
theorem C9_write_offset (s : CacheSet) (tag off : Nat) (d : Datum) :
    (dictGet? s.entries tag = none → s.write_data tag off d = (s, some false))
    ∧ (∀ b, dictGet? s.entries tag = some b →
        (s.write_data tag off d).2 = none
        ∧ (s.write_data tag off d).1.entries.map Prod.fst = s.entries.map Prod.fst
        ∧ dictGet? (s.write_data tag off d).1.entries tag = some (dictSet b off d)
        ∧ (∀ t, t ≠ tag →
            dictGet? (s.write_data tag off d).1.entries t = dictGet? s.entries t)
        ∧ dictGet? (dictSet b off d) off = some d
        ∧ (∀ o, o ≠ off → dictGet? (dictSet b off d) o = dictGet? b o)) := by
  constructor
  · intro h
    unfold CacheSet.write_data
    rw [h]
  · intro b hb
    have hw : s.write_data tag off d
        = ({ s with entries := dictSet s.entries tag (dictSet b off d) }, none) := by
      unfold CacheSet.write_data
      rw [hb]
    rw [hw]
    refine ⟨rfl, ?_, ?_, ?_, dictGet?_dictSet_self _ _ _, ?_⟩
    · exact dictSet_map_fst_of_isSome _ _ _ (by simp [hb])
    · exact dictGet?_dictSet_self _ _ _
    · intro t ht
      exact dictGet?_dictSet_ne _ _ _ _ ht
    · intro o ho
      exact dictGet?_dictSet_ne _ _ _ _ ho

/-- C9 witness: `c9set` holds tag 3 with block `{1: 9}`; writing at the
absent tag 5 fails with `False`, writing at tag 3, offset 2, datum 7
returns `None` and stores `{1: 9, 2: 7}`. -/
theorem C9_witness :
    c9set.write_data 5 2 7 = (c9set, some false)
    ∧ (c9set.write_data 3 2 7).2 = none
    ∧ dictGet? (c9set.write_data 3 2 7).1.entries 3 = some (dictSet [(1, 9)] 2 7)
    ∧ dictGet? (dictSet [(1, 9)] 2 7) 2 = some 7 := by
  refine ⟨(C9_write_offset c9set 5 2 7).1 rfl, ?_⟩
  have h := (C9_write_offset c9set 3 2 7).2 [(1, 9)] rfl
  exact ⟨h.1, h.2.2.1, h.2.2.2.2.1⟩

/-! ### C10 — Memory.get_block is a mutating synthesizer -/

/-- C10: after `Memory.write_data(a, d)`, a subsequent `get_block(a)` does
not return the datum `d`: it always returns the synthesized block
`{i: b"data" + bytes([i]) for i in range(16)}` — independent of the store's
contents, as the statement holds for every prior memory state — and it
overwrites `storage[a]` (which held `d`) with that block, so `get_block`
mutates the backing store. -/
theorem C10_get_block_mutates (m : Memory) (a : Nat) (d : Datum) :
    ((m.write_data a (.datum d)).get_block a 16).1 = freshBlockData 16
    ∧ (freshBlockData 16).length = 16
    ∧ dictGet? (m.write_data a (.datum d)).storage a = some (.datum d)
    ∧ dictGet? ((m.write_data a (.datum d)).get_block a 16).2.storage a
        = some (.block (freshBlockData 16))
    ∧ (∀ v : Datum, MemVal.block ((m.write_data a (.datum d)).get_block a 16).1
        ≠ MemVal.datum v) := by
  refine ⟨rfl, rfl, ?_, ?_, ?_⟩
  · exact dictGet?_dictSet_self _ _ _
  · exact dictGet?_dictSet_self _ _ _
  · intro v h
    cases h

/-! ### C7 — translation round trip -/

/-- C7: for every MMU state and virtual address, a second `translate_address`
immediately after a first one returns the identical physical address — served
from the TLB, into which the first call installed the translation — and
reports no new page fault (`is_palt = false`), regardless of which path
(TLB hit, page-table walk, or page-fault service with any frame draw
`o1`, `o2`) the first call took. -/
theorem C7_translate_roundtrip (m : MMU) (va o1 o2 : Nat) :
    ((m.translate_address o1 va).1.translate_address o2 va).2 = (m.translate_address o1 va).2
    ∧ ((m.translate_address o1 va).1.translate_address o2 va).1.is_palt = false
    ∧ dictGet? (m.translate_address o1 va).1.tlb va = some (m.translate_address o1 va).2 := by
  have key : ∀ (mm : MMU) (o : Nat),
      dictGet? (mm.translate_address o va).1.tlb va = some (mm.translate_address o va).2 := by
    intro mm o
    unfold MMU.translate_address
    cases h : dictGet? mm.tlb va with
    | some pa => simp [h]
    | none =>
      cases h2 : dictGet? mm.page_table.entries
          (va >>> bit_length (mm.page_table.page_size - 1)) with
      | some ppn => simp [h, h2, MMU.update_tlb, dictGet?_dictSet_self]
      | none => simp [h, h2, MMU.update_tlb, dictGet?_dictSet_self]
  have hit : ∀ (mm : MMU) (o pa : Nat), dictGet? mm.tlb va = some pa →
      mm.translate_address o va = ({ mm with is_palt := false }, pa) := by
    intro mm o pa h
    unfold MMU.translate_address
    simp [h]
  have htlb := key m o1
  have hsec := hit (m.translate_address o1 va).1 o2 (m.translate_address o1 va).2 htlb
  rw [hsec]
  exact ⟨rfl, rfl, htlb⟩

/-! ### C6 — set capacity invariant -/

theorem add_or_update_preserves (s : CacheSet) (tag : Nat) (b : Block) (s' : CacheSet)
    (h : s.add_or_update tag b = .ok s') :
    s'.n_way = s.n_way
    ∧ (s.entries.length ≤ s.n_way → 1 ≤ s.n_way → s'.entries.length ≤ s.n_way) := by
  unfold CacheSet.add_or_update at h
  split at h
  · exact absurd h (by simp)
  · split at h
    · -- tag present: in-place update then move to end
      rename_i hsz hp
      simp only [Except.ok.injEq] at h
      subst h
      refine ⟨rfl, fun hlen _ => ?_⟩
      simp only []
      have hset : (dictGet? (dictSet s.entries tag b) tag).isSome := by
        rw [dictGet?_dictSet_self]; rfl
      have hrm := dictRemove_length_lt (dictSet s.entries tag b) tag hset
      have heq := dictSet_length_of_isSome s.entries tag b hp
      unfold odMoveToEnd
      rw [dictGet?_dictSet_self]
      simp only [List.length_append, List.length_cons, List.length_nil]
      omega
    · split at h
      · -- tag absent, set full: evict the front, then append
        rename_i hsz hp hfull
        cases hent : s.entries with
        | nil =>
          rw [hent] at h
          exact absurd h (by simp [popFront, exceptBind_error])
        | cons x t =>
          rw [hent] at h
          simp only [popFront, exceptBind_ok, Except.ok.injEq] at h
          subst h
          refine ⟨rfl, fun hlen hn => ?_⟩
          simp only [hent, List.length_cons] at hlen
          have hds := dictSet_length_le t tag b
          show (dictSet t tag b).length ≤ s.n_way
          omega
      · -- tag absent, room left: append
        rename_i hsz hp hfull
        simp only [Except.ok.injEq] at h
        subst h
        refine ⟨rfl, fun hlen hn => ?_⟩
        have := dictSet_length_le s.entries tag b
        simp only [] at hfull ⊢
        omega

theorem runPuts_inv : ∀ (ops : List (Nat × Block)) (s : CacheSet),
    s.entries.length ≤ s.n_way → 1 ≤ s.n_way →
    (runPuts s ops).entries.length ≤ (runPuts s ops).n_way
    ∧ (runPuts s ops).n_way = s.n_way := by
  intro ops
  induction ops with
  | nil => exact fun s h1 h2 => ⟨h1, rfl⟩
  | cons op rest ih =>
    intro s h1 h2
    obtain ⟨tag, block⟩ := op
    simp only [runPuts]
    cases hadd : s.add_or_update tag block with
    | ok s' =>
      have hp := add_or_update_preserves s tag block s' hadd
      have h1' : s'.entries.length ≤ s'.n_way := by rw [hp.1]; exact hp.2 h1 h2
      have h2' : 1 ≤ s'.n_way := by rw [hp.1]; exact h2
      have := ih s' h1' h2'
      exact ⟨this.1, by rw [this.2, hp.1]⟩
    | error e => exact ih s h1 h2

/-- C6: for every block size and every sequence of `add_or_update` ("put")
operations on a fresh `CacheSet` of associativity `n ≥ 1`, the number of
entries is at most `n` afterwards; since the statement quantifies over all
sequences it holds in particular after every prefix, i.e. after every
single operation (a put that raises leaves the set unchanged). -/
theorem C6_capacity_invariant (n bs : Nat) (ops : List (Nat × Block)) (h : 1 ≤ n) :
    (runPuts (mkCacheSet n bs) ops).entries.length ≤ n := by
  have hinv := runPuts_inv ops (mkCacheSet n bs) (by simp [mkCacheSet]) h
  have h2 : (runPuts (mkCacheSet n bs) ops).n_way = n := hinv.2
  exact le_of_le_of_eq hinv.1 h2

/-- C6 witness: four puts (with a repeat and an eviction) into a fresh
2-way set. -/
theorem C6_witness :
    1 ≤ 2
    ∧ (runPuts (mkCacheSet 2 16) [(1, []), (2, []), (3, []), (1, [])]).entries.length ≤ 2 :=
  ⟨by decide, C6_capacity_invariant 2 16 [(1, []), (2, []), (3, []), (1, [])] (by decide)⟩

/-! ### C5 — amended address decomposition -/

/-- C5 amended: for a level with block size `2^ob` and set count
`size / (line * n_way) = 2^k`, the set index is `(A >> ob) mod 2^k` as the
claim states (0 for fully associative, by definition); the tag however is
`A >> (bit_length(index(A)) + ob)` — shifting by the bit length of this
address's concrete set index instead of `log2 S` — and the
fully-associative tag is `A / line_size`, not `A / block_size`. -/
theorem C5_decomposition (lvl size line n_way ob k a : Nat)
    (hS : size / (line * n_way) = 2 ^ k) :
    (mkSetAssociativeCache lvl size line n_way (2 ^ ob) .set_associative)._get_set_index a
      = (a >>> ob) % 2 ^ k
    ∧ (mkSetAssociativeCache lvl size line n_way (2 ^ ob) .set_associative).get_tag a
      = a >>> (bit_length
          ((mkSetAssociativeCache lvl size line n_way (2 ^ ob) .set_associative)._get_set_index a)
          + ob)
    ∧ (mkSetAssociativeCache lvl size line n_way (2 ^ ob) .fully_associative).get_tag a
      = a / line := by
  have hobl : bit_length (2 ^ ob) = ob + 1 := bit_length_two_pow ob
  have hkbl : bit_length (2 ^ k) = k + 1 := bit_length_two_pow k
  have hidx : (mkSetAssociativeCache lvl size line n_way (2 ^ ob) .set_associative)._get_set_index a
      = (a >>> ob) % 2 ^ k := by
    simp only [mkSetAssociativeCache, SetAssociativeCache._get_set_index]
    simp [hS, hobl, hkbl, Nat.add_sub_cancel, Nat.one_shiftLeft,
      Nat.and_pow_two_sub_one_eq_mod]
  refine ⟨hidx, ?_, rfl⟩
  rw [hidx]
  simp only [mkSetAssociativeCache, SetAssociativeCache.get_tag,
    SetAssociativeCache._get_set_index]
  simp [hS, hobl, hkbl, Nat.add_sub_cancel, Nat.one_shiftLeft,
    Nat.and_pow_two_sub_one_eq_mod]

/-- C5 witness: the amended statement at `size = 128`, `line = 16`,
`n_way = 2`, `B = 2^4`, `S = 2^2`, address 528. -/
theorem C5_witness :
    128 / (16 * 2) = 2 ^ 2
    ∧ ((mkSetAssociativeCache 1 128 16 2 (2 ^ 4) .set_associative)._get_set_index 528
          = (528 >>> 4) % 2 ^ 2
        ∧ (mkSetAssociativeCache 1 128 16 2 (2 ^ 4) .set_associative).get_tag 528
          = 528 >>> (bit_length
              ((mkSetAssociativeCache 1 128 16 2 (2 ^ 4) .set_associative)._get_set_index 528)
              + 4)
        ∧ (mkSetAssociativeCache 1 128 16 2 (2 ^ 4) .fully_associative).get_tag 528
          = 528 / 16) :=
  ⟨by decide, C5_decomposition 1 128 16 2 4 2 528 (by decide)⟩

/-! ### Per-level characterizations of `SetAssociativeCache` operations -/

theorem sac_check_hit_of (c : SetAssociativeCache) (a : Nat) (st : CacheSet)
    (hst : listGet c.cache_sets (c._get_set_index a) = .ok st) :
    c.check_hit a = .ok (st.check_hit (c.get_tag a), c.level) := by
  simp only [SetAssociativeCache.check_hit, hst, exceptBind_ok]

theorem sac_read_of (c : SetAssociativeCache) (a : Nat) (st : CacheSet)
    (hst : listGet c.cache_sets (c._get_set_index a) = .ok st) :
    c.read_data a = st.read_data (c.get_tag a) (c.get_offset a) := by
  simp only [SetAssociativeCache.read_data, SetAssociativeCache.check_hit, hst,
    exceptBind_ok, pyTruthyPair, if_true]

theorem sac_write_eq (c : SetAssociativeCache) (a : Nat) (d : Datum) (st : CacheSet)
    (hst : listGet c.cache_sets (c._get_set_index a) = .ok st) :
    c.write_data a d = .ok { c with
      cache_sets := (c.cache_sets.set (c._get_set_index a)
        ((st.write_data (c.get_tag a) (c.get_offset a) d).1)) } := by
  simp only [SetAssociativeCache.write_data, hst, exceptBind_ok]

theorem sac_update_read (c : SetAssociativeCache) (a : Nat) (st' : CacheSet)
    (hidx : c._get_set_index a < c.cache_sets.length) :
    SetAssociativeCache.read_data
      { c with cache_sets := c.cache_sets.set (c._get_set_index a) st' } a
      = st'.read_data (c.get_tag a) (c.get_offset a) := by
  apply sac_read_of
  rw [listGet_eq_ok_iff]
  exact List.getElem?_set_self hidx

/-- After a successful `write_data`: the level id is unchanged; if the
address's tag was resident the level now reads back the datum; if it was
not resident the level is completely unchanged. -/
theorem sac_write_read (c : SetAssociativeCache) (a : Nat) (d : Datum)
    (c' : SetAssociativeCache) (hw : c.write_data a d = .ok c') :
    c'.level = c.level
    ∧ (c.check_hit a = .ok (true, c.level) → c'.read_data a = .ok (some d))
    ∧ (c.check_hit a = .ok (false, c.level) → c' = c) := by
  cases hl : listGet c.cache_sets (c._get_set_index a) with
  | error e =>
    simp only [SetAssociativeCache.write_data, hl, exceptBind_error] at hw
    exact Except.noConfusion hw
  | ok st =>
    rw [sac_write_eq c a d st hl] at hw
    simp only [Except.ok.injEq] at hw
    subst hw
    have hidx : c._get_set_index a < c.cache_sets.length := listGet_lt hl
    refine ⟨rfl, ?_, ?_⟩
    · intro hhit
      rw [sac_check_hit_of c a st hl] at hhit
      simp only [Except.ok.injEq, Prod.mk.injEq] at hhit
      have hb : (dictGet? st.entries (c.get_tag a)).isSome = true := hhit.1
      obtain ⟨b, hbv⟩ := Option.isSome_iff_exists.mp hb
      have hwd : st.write_data (c.get_tag a) (c.get_offset a) d
          = ({ st with
                entries := (dictSet st.entries (c.get_tag a)
                  (dictSet b (c.get_offset a) d)) }, none) := by
        unfold CacheSet.write_data
        rw [hbv]
      simp only [hwd]
      rw [sac_update_read c a _ hidx]
      unfold CacheSet.read_data
      simp only [dictGet?_dictSet_self]
    · intro hmiss
      rw [sac_check_hit_of c a st hl] at hmiss
      simp only [Except.ok.injEq, Prod.mk.injEq] at hmiss
      have h1 : (dictGet? st.entries (c.get_tag a)).isSome = false := hmiss.1
      have hb : dictGet? st.entries (c.get_tag a) = none := by
        cases h2 : dictGet? st.entries (c.get_tag a) with
        | none => rfl
        | some b => rw [h2] at h1; simp at h1
      have hwd : st.write_data (c.get_tag a) (c.get_offset a) d = (st, some false) := by
        unfold CacheSet.write_data
        rw [hb]
      simp only [hwd]
      have hset : c.cache_sets.set (c._get_set_index a) st = c.cache_sets :=
        set_getElem?_self _ _ _ (listGet_eq_ok_iff.mp hl)
      rw [hset]

/-! ### C2 — amended write-through -/

theorem writeLevels_ok : ∀ (ls ls' : List SetAssociativeCache) (a : Nat) (d : Datum),
    writeLevels a d ls = .ok ls' →
    ls'.length = ls.length
    ∧ ∀ (i : Nat) (c c' : SetAssociativeCache),
        ls[i]? = some c → ls'[i]? = some c' → c.write_data a d = .ok c' := by
  intro ls
  induction ls with
  | nil =>
    intro ls' a d h
    simp only [writeLevels, Except.ok.injEq] at h
    subst h
    exact ⟨rfl, by simp⟩
  | cons c rest ih =>
    intro ls' a d h
    simp only [writeLevels] at h
    cases hw : c.write_data a d with
    | error e =>
      rw [hw] at h
      simp only [exceptBind_error] at h
      exact Except.noConfusion h
    | ok c1 =>
      rw [hw] at h
      cases hr : writeLevels a d rest with
      | error e =>
        rw [hr] at h
        simp only [exceptBind_ok, exceptBind_error] at h
        exact Except.noConfusion h
      | ok rest1 =>
        rw [hr] at h
        simp only [exceptBind_ok, Except.ok.injEq] at h
        subst h
        obtain ⟨hlen, hpt⟩ := ih rest1 a d hr
        refine ⟨by simp [hlen], ?_⟩
        intro i cc cc' hc hc'
        cases i with
        | zero =>
          simp only [List.getElem?_cons_zero, Option.some.injEq] at hc hc'
          subst hc
          subst hc'
          exact hw
        | succ j =>
          simp only [List.getElem?_cons_succ] at hc hc'
          exact hpt j cc cc' hc hc'

/-- C2 amended: after `CacheSystem.write_data(a, d)` followed by the MMU's
write-through `memory.write_data(a, d)`, reading `a` from the backing store
returns `d`, and every cache level in which the tag of `a` was resident
reads back `d`; a level in which it was not resident is left completely
unchanged — `CacheSet.write_data` returns `False` for it and no
write-allocate takes place in `CacheSystem.write_data`. -/
theorem C2_write_through (cs : CacheSystem) (mem : Memory) (a : Nat) (d : Datum)
    (cs' : CacheSystem) (hw : cs.write_data a d = .ok cs') :
    Memory.read (mem.write_data a (.datum d)) a = some (.datum d)
    ∧ cs'.cache_levels.length = cs.cache_levels.length
    ∧ ∀ (i : Nat) (c c' : SetAssociativeCache),
        cs.cache_levels[i]? = some c → cs'.cache_levels[i]? = some c' →
        (c.check_hit a = .ok (true, c.level) → c'.read_data a = .ok (some d))
        ∧ (c.check_hit a = .ok (false, c.level) → c' = c) := by
  simp only [CacheSystem.write_data] at hw
  cases hwl : writeLevels a d cs.cache_levels with
  | error e =>
    rw [hwl] at hw
    simp only [exceptBind_error] at hw
    exact Except.noConfusion hw
  | ok ls' =>
    rw [hwl] at hw
    simp only [exceptBind_ok, Except.ok.injEq] at hw
    subst hw
    obtain ⟨hlen, hpt⟩ := writeLevels_ok _ _ _ _ hwl
    refine ⟨dictGet?_dictSet_self _ _ _, hlen, ?_⟩
    intro i c c' hc hc'
    have hwc := hpt i c c' hc hc'
    have h := sac_write_read c a d c' hwc
    exact ⟨h.2.1, h.2.2⟩

/-- C2 witness: a one-level system with the block of address 0 resident
(`c2wLoaded`); writing datum 5 makes both the backing store and the level
read back 5. -/
theorem C2_witness :
    Memory.read ((mkMemory 1024).write_data 0 (.datum 5)) 0 = some (.datum 5)
    ∧ c2wL0.read_data 0 = .ok (some 5) := by
  have h := C2_write_through c2wLoaded (mkMemory 1024) 0 5 c2wWritten rfl
  refine ⟨h.1, ?_⟩
  exact (h.2.2 0 c2wL0pre c2wL0 rfl rfl).1 rfl

/-! ### C3 — amended promotion -/

/-- A read that returns at all (with any value) found the tag resident:
an absent tag raises `KeyError` instead. -/
theorem sac_read_ok_check_hit (c : SetAssociativeCache) (a : Nat) (r : Option Datum)
    (h : c.read_data a = .ok r) : c.check_hit a = .ok (true, c.level) := by
  cases hl : listGet c.cache_sets (c._get_set_index a) with
  | error e =>
    simp only [SetAssociativeCache.read_data, SetAssociativeCache.check_hit, hl,
      exceptBind_error] at h
    exact Except.noConfusion h
  | ok st =>
    rw [sac_read_of c a st hl] at h
    rw [sac_check_hit_of c a st hl]
    unfold CacheSet.read_data at h
    cases hb : dictGet? st.entries (c.get_tag a) with
    | none =>
      rw [hb] at h
      exact Except.noConfusion h
    | some b =>
      have hch : st.check_hit (c.get_tag a) = true := by
        unfold CacheSet.check_hit
        rw [hb]
        rfl
      rw [hch]

theorem sac_update_check_hit (c : SetAssociativeCache) (a : Nat) (st' : CacheSet)
    (hidx : c._get_set_index a < c.cache_sets.length) :
    SetAssociativeCache.check_hit
      { c with cache_sets := c.cache_sets.set (c._get_set_index a) st' } a
      = .ok (st'.check_hit (c.get_tag a), c.level) := by
  apply sac_check_hit_of
  rw [listGet_eq_ok_iff]
  exact List.getElem?_set_self hidx

/-- `write_data` never removes a resident tag: a level that hit before the
write still hits after it, with the same level id. -/
theorem sac_write_keeps_hit (c : SetAssociativeCache) (a : Nat) (d : Datum)
    (c' : SetAssociativeCache) (hw : c.write_data a d = .ok c')
    (hh : c.check_hit a = .ok (true, c.level)) :
    c'.check_hit a = .ok (true, c'.level) := by
  cases hl : listGet c.cache_sets (c._get_set_index a) with
  | error e =>
    simp only [SetAssociativeCache.write_data, hl, exceptBind_error] at hw
    exact Except.noConfusion hw
  | ok st =>
    rw [sac_write_eq c a d st hl] at hw
    simp only [Except.ok.injEq] at hw
    subst hw
    have hidx := listGet_lt hl
    rw [sac_check_hit_of c a st hl] at hh
    simp only [Except.ok.injEq, Prod.mk.injEq] at hh
    have hb : (dictGet? st.entries (c.get_tag a)).isSome = true := hh.1
    obtain ⟨b, hbv⟩ := Option.isSome_iff_exists.mp hb
    have hwd : st.write_data (c.get_tag a) (c.get_offset a) d
        = ({ st with
              entries := (dictSet st.entries (c.get_tag a)
                (dictSet b (c.get_offset a) d)) }, none) := by
      unfold CacheSet.write_data
      rw [hbv]
    simp only [hwd]
    rw [sac_update_check_hit c a _ hidx]
    have hch : CacheSet.check_hit
        { st with
          entries := (dictSet st.entries (c.get_tag a)
            (dictSet b (c.get_offset a) d)) } (c.get_tag a) = true := by
      unfold CacheSet.check_hit
      simp [dictGet?_dictSet_self]
    rw [hch]

/-- The level loop of `CacheSystem.read_data`: when it returns a hit at
0-based index `k` and all levels accumulated in `pre` missed with `.ok
none` (tag resident, offset absent), every level before `k` in the
resulting list still hits the address. -/
theorem readLevelsAux_hits (a : Nat) (d : Datum) :
    ∀ (ls pre out : List SetAssociativeCache) (k : Nat),
    (∀ p ∈ pre, p.read_data a = .ok none) →
    readLevelsAux a pre ls = .ok (out, some d, some k) →
    ∀ j, j < k → ∃ cj, out[j]? = some cj ∧ cj.check_hit a = .ok (true, cj.level) := by
  intro ls
  induction ls with
  | nil =>
    intro pre out k hpre h
    simp only [readLevelsAux, Except.ok.injEq, Prod.mk.injEq] at h
    exact absurd h.2.1 (by simp)
  | cons c rest ih =>
    intro pre out k hpre h
    simp only [readLevelsAux] at h
    cases hr : c.read_data a with
    | error e =>
      rw [hr] at h
      simp only [exceptBind_error] at h
      exact Except.noConfusion h
    | ok ro =>
      rw [hr] at h
      simp only [exceptBind_ok] at h
      cases ro with
      | some data =>
        dsimp only [] at h
        cases hwl : writeLevels a data pre with
        | error e =>
          rw [hwl] at h
          simp only [exceptBind_error] at h
          exact Except.noConfusion h
        | ok pre' =>
          rw [hwl] at h
          simp only [exceptBind_ok, Except.ok.injEq, Prod.mk.injEq,
            Option.some.injEq] at h
          obtain ⟨hout, hd, hk⟩ := h
          subst hout
          subst hk
          subst hd
          obtain ⟨hlen, hpt⟩ := writeLevels_ok pre pre' a data hwl
          intro j hj
          have hj' : j < pre'.length := by omega
          have hjp : j < pre.length := hj
          have hgj' : pre'[j]? = some (pre'.get ⟨j, hj'⟩) := by
            rw [List.getElem?_eq_getElem hj']
            rfl
          have hgj : pre[j]? = some (pre.get ⟨j, hjp⟩) := by
            rw [List.getElem?_eq_getElem hjp]
            rfl
          have hwj := hpt j (pre.get ⟨j, hjp⟩) (pre'.get ⟨j, hj'⟩) hgj hgj'
          have hmem : pre.get ⟨j, hjp⟩ ∈ pre := List.get_mem pre j hjp
          have hread := hpre _ hmem
          have hchk := sac_read_ok_check_hit _ a none hread
          have hhit := sac_write_keeps_hit _ a data _ hwj hchk
          refine ⟨pre'.get ⟨j, hj'⟩, ?_, hhit⟩
          rw [List.getElem?_append_left hj']
          exact hgj'
      | none =>
        dsimp only [] at h
        refine ih (pre ++ [c]) out k ?_ h
        intro p hp
        rcases List.mem_append.mp hp with hp1 | hp2
        · exact hpre p hp1
        · have hpc : p = c := by simpa using hp2
          subst hpc
          exact hr

/-- C3 amended: if a `CacheSystem` read returns with a hit at 0-based level
`k`, then afterwards `check_hit` reports a hit at every level nearer the
CPU than `k` — not because the owning block was copied there (it is not;
see the counterexample) but because every nearer level already had the tag
resident (otherwise its `read_data` would have raised `KeyError` instead of
letting the probe reach level `k`), and the promotion loop only writes the
single datum into that resident block, never removing the tag. -/
theorem C3_promotion (cs : CacheSystem) (a : Nat) (cs' : CacheSystem) (d : Datum) (k : Nat)
    (h : cs.read_data_aux a = .ok (cs', some d, some k)) :
    ∀ j, j < k → ∃ cj, cs'.cache_levels[j]? = some cj
      ∧ cj.check_hit a = .ok (true, cj.level) := by
  simp only [CacheSystem.read_data_aux] at h
  cases hrl : readLevelsAux a [] cs.cache_levels with
  | error e =>
    rw [hrl] at h
    exact Except.noConfusion h
  | ok r =>
    rw [hrl] at h
    simp only [exceptBind_ok, Except.ok.injEq, Prod.mk.injEq] at h
    obtain ⟨h1, h2, h3⟩ := h
    have hr' : readLevelsAux a [] cs.cache_levels = .ok (r.1, some d, some k) := by
      rw [hrl, ← h2, ← h3]
    have hmain := readLevelsAux_hits a d cs.cache_levels [] r.1 k (by simp) hr'
    intro j hj
    obtain ⟨cj, hcj, hhit⟩ := hmain j hj
    refine ⟨cj, ?_, hhit⟩
    rw [← h1]
    exact hcj

/-- C3 witness: in the concrete `c3cs` scenario the read of address 0 hits
at level 1 and level 0 reports a hit afterwards. -/
theorem C3_witness :
    ∃ cj, c3cs'.cache_levels[0]? = some cj ∧ cj.check_hit 0 = .ok (true, cj.level) :=
  C3_promotion c3cs 0 c3cs' 7 1 rfl 0 (by decide)

end VMSim
